import Mathlib

/-!
# Verification of the rkt-monitor process sampler

A shallow embedding, in Lean 4, of the resource-sampling core of the
rkt-monitor repository (Go).  The embedding covers the `/proc`-based
implementation (`ProcessStatus`, `GetCPUUsageUser`, `GetCPUUsageKernel`,
`getProcStatus`, `getUsage`, `parseLabeledSize`, `formatSize`, the
per-pid history accumulation and the final aggregation loop of
`runRktMonitor`) as well as the pid-discovery loop of the
gopsutil-based `main.go` variant (`getUsage` there, modelled as
`mainWalkPids`).

Conventions of the embedding:
* Go `uint64` arithmetic is `Nat` with explicit reduction modulo `2^64`
  (`wrap64`, `sub64`); Go integer division by zero, `panic`, and failed
  `ioutil.ReadFile` calls are modelled by `Option` with `none` for the
  aborted computation.
* Go strings are `List Char`; `strings.Split` on the one-character
  separators used by the source is `splitOnChar`, `strings.TrimSpace`
  is `trimSpace`, `strconv.ParseUint(s, 10, 64)` is `parseUint`, and
  `strconv.FormatUint(n, 10)` is `natRepr`.
* `fmt.Sscanf(s, "%d <suffix>", &num)` is `sscanfDSuffix`: per the Go
  `fmt` scanning semantics, the returned operand count is the number of
  operands assigned before the first error, so the count is `1` as soon
  as the `%d` verb itself succeeds, even when the literal suffix after
  it does not match the input.  The error value (which the source
  discards with `i, _ := fmt.Sscanf(...)`) is returned as a `Bool`.
* The filesystem surface read by `getProcStatus` (the files
  `/proc/<pid>/status`, `/proc/stat`, `/proc/<pid>/stat`) is a `ProcFS`
  record of partial functions; the `pgrep -P` child enumeration is an
  oracle `ch : Nat → List Nat`; recursion over the process tree is
  bounded by explicit fuel (the Go recursion terminates exactly when
  the tree has finite depth/size).
-/

namespace RktMonitor

/-- `2^64`, the modulus of Go `uint64` arithmetic. -/
def u64size : Nat := 2 ^ 64

/-- Reduction of a `Nat` into the Go `uint64` range. -/
def wrap64 (n : Nat) : Nat := n % u64size

/-- Go `uint64` subtraction `a - b` (wraps around on underflow). -/
def sub64 (a b : Nat) : Nat := (a % u64size + (u64size - b % u64size)) % u64size

/-- Character predicate for the whitespace trimmed by `strings.TrimSpace`
and skipped by the `fmt` scanner before a verb. -/
def isSpaceChar (c : Char) : Bool := c = ' ' || c = '\t' || c = '\n' || c = '\r'

/-- `strings.TrimSpace`: drop leading and trailing whitespace. -/
def trimSpace (s : List Char) : List Char :=
  ((s.dropWhile isSpaceChar).reverse.dropWhile isSpaceChar).reverse

/-- `strings.Split` with a one-character separator (the source only ever
splits on `"\n"`, `":"`, `"\t"` and `" "`).  Like Go's `strings.Split`,
the result always has one more element than there are separators. -/
def splitOnChar (sep : Char) : List Char → List (List Char)
  | [] => [[]]
  | c :: rest =>
    if c = sep then [] :: splitOnChar sep rest
    else
      match splitOnChar sep rest with
      | [] => [[c]]
      | t :: ts => (c :: t) :: ts

/-- `strings.HasPrefix(line, "cpu ")`. -/
def hasCpuSpacePre (s : List Char) : Bool :=
  match s with
  | 'c' :: 'p' :: 'u' :: ' ' :: _ => true
  | _ => false

/-- Numeric value of a run of decimal digit characters. -/
def digitsToNat (s : List Char) : Nat :=
  s.foldl (fun a c => a * 10 + (c.toNat - '0'.toNat)) 0

/-- `strconv.ParseUint(s, 10, 64)`: succeeds exactly on a non-empty
all-digit string whose value fits in a `uint64`. -/
def parseUint (s : List Char) : Option Nat :=
  if s = [] then none
  else if s.all Char.isDigit then
    if digitsToNat s < u64size then some (digitsToNat s) else none
  else none

/-- `strconv.FormatUint(n, 10)`. -/
def natRepr (n : Nat) : List Char := Nat.toDigits 10 n

/-- `fmt.Sscanf(input, "%d " ++ suffix, &num)`.

Returns `(i, num, errFree)` where `i` is the operand count returned by
`Sscanf` and `errFree` tells whether the whole format matched (the
source discards this error).  Following the Go scanning semantics:
the `%d` verb first skips spaces, then consumes a maximal run of
decimal digits; it succeeds (and the operand count becomes `1`) iff the
run is non-empty and its value fits in a `uint64`.  Only *after* the
verb has been assigned is the literal part `" " ++ suffix` of the
format matched against the rest of the input, and a mismatch there
produces an error but does not undo the assignment, so `i` stays `1`. -/
def sscanfDSuffix (suffix : List Char) (input : List Char) : Nat × Nat × Bool :=
  let afterSpaces := input.dropWhile isSpaceChar
  let digits := afterSpaces.takeWhile Char.isDigit
  let rest := afterSpaces.dropWhile Char.isDigit
  if digits = [] then (0, 0, false)
  else if digitsToNat digits < u64size then
    let restSpaces := rest.dropWhile (fun c => c = ' ')
    let litOk := (decide (restSpaces.length < rest.length) || rest.isEmpty)
      && suffix.isPrefixOf restSpaces
    (1, digitsToNat digits, litOk)
  else (0, 0, false)

/-- The source's `parseLabeledSize` (part_001, lines 308–331): four
`fmt.Sscanf` attempts with formats `"%d B"`, `"%d kB"`, `"%d mB"`,
`"%d gB"`, each guarded by `i == 1`; the final `panic` is `none`.
The scale factors multiply in `uint64` arithmetic. -/
def parseLabeledSize (size : List Char) : Option Nat :=
  let r1 := sscanfDSuffix ['B'] size
  if r1.1 = 1 then some r1.2.1
  else
    let r2 := sscanfDSuffix ['k', 'B'] size
    if r2.1 = 1 then some (wrap64 (r2.2.1 * 1024))
    else
      let r3 := sscanfDSuffix ['m', 'B'] size
      if r3.1 = 1 then some (wrap64 (r3.2.1 * 1024 * 1024))
      else
        let r4 := sscanfDSuffix ['g', 'B'] size
        if r4.1 = 1 then some (wrap64 (r4.2.1 * 1024 * 1024 * 1024))
        else none

/-- The source's `formatSize` (identical in both variants): strict
threshold comparisons at each power-of-1024 boundary, truncating
`uint64` division to pick the rendered number. -/
def formatSize (size : Nat) : List Char :=
  if size > 1024 * 1024 * 1024 then natRepr (size / (1024 * 1024 * 1024)) ++ " gB".data
  else if size > 1024 * 1024 then natRepr (size / (1024 * 1024)) ++ " mB".data
  else if size > 1024 then natRepr (size / 1024) ++ " kB".data
  else natRepr size ++ " B".data

/-- Round trip of §6 of the spec: format a byte count, then parse the
rendering back with the unit-label parser. -/
def parseFormatRoundTrip (n : Nat) : Option Nat := parseLabeledSize (formatSize n)

/-- The `ProcessStatus` record of the `/proc` variant (part_001,
lines 145–160).  Field defaults are the Go zero values. -/
structure ProcessStatus where
  Pid : Nat := 0
  Name : List Char := []
  FDSize : Nat := 0
  VmPeak : Nat := 0
  VmSize : Nat := 0
  VmHWM : Nat := 0
  VmRSS : Nat := 0
  Threads : Nat := 0
  Utime : Nat := 0
  LastUtime : Nat := 0
  Stime : Nat := 0
  LastStime : Nat := 0
  TimeTotal : Nat := 0
  LastTimeTotal : Nat := 0

/-- The Go zero value of `ProcessStatus`. -/
def zeroStatus : ProcessStatus := {}

/-- `GetCPUUsageUser` (part_001, lines 163–165):
`100 * (ps.Utime - ps.LastUtime) / (ps.TimeTotal - ps.LastTimeTotal)`
in `uint64` arithmetic.  A zero denominator is a Go runtime panic
(integer divide by zero), modelled as `none`. -/
def GetCPUUsageUser (ps : ProcessStatus) : Option Nat :=
  if sub64 ps.TimeTotal ps.LastTimeTotal = 0 then none
  else some (wrap64 (100 * sub64 ps.Utime ps.LastUtime) / sub64 ps.TimeTotal ps.LastTimeTotal)

/-- `GetCPUUsageKernel` (part_001, lines 167–169); never called by the
rest of the source. -/
def GetCPUUsageKernel (ps : ProcessStatus) : Option Nat :=
  if sub64 ps.TimeTotal ps.LastTimeTotal = 0 then none
  else some (wrap64 (100 * sub64 ps.Stime ps.LastStime) / sub64 ps.TimeTotal ps.LastTimeTotal)

/-- Modelled from the spec (§4.4 rule 3, refinement comparison only):
`cpuPercent = 100 * (userTicks + kernelTicks - prevUserTicks - prevKernelTicks)
/ (systemTicks - prevSystemTicks)`, on exact (non-wrapping) counters. -/
def specCpuPercent (ps : ProcessStatus) : Nat :=
  100 * ((ps.Utime + ps.Stime) - (ps.LastUtime + ps.LastStime))
    / (ps.TimeTotal - ps.LastTimeTotal)

/-- The filesystem surface read by `getProcStatus`: the per-pid files
`/proc/<pid>/status` and `/proc/<pid>/stat`, and the system-wide
`/proc/stat`.  `none` models a failing `ioutil.ReadFile` (e.g. the
process exited between enumeration and read). -/
structure ProcFS where
  procStatus : Nat → Option String
  stat : Option String
  procStatFile : Nat → Option String

/-- The `lastStatus` scan of `getProcStatus` (part_001, lines 182–187):
iterate over `lastStatuses`, keeping the last entry whose `Pid`
matches; the Go zero value if none does. -/
def findLastStatus (pid : Nat) (lastStatuses : List ProcessStatus) : ProcessStatus :=
  lastStatuses.foldl (fun acc s => if s.Pid = pid then s else acc) zeroStatus

/-- The `ProcessStatus{Pid: pid}` literal plus the three `Last*`
assignments of `getProcStatus` (part_001, lines 179–190). -/
def initStatus (pid : Nat) (lastStatuses : List ProcessStatus) : ProcessStatus :=
  let lastStatus := findLastStatus pid lastStatuses
  { zeroStatus with
      Pid := pid
      LastUtime := lastStatus.Utime
      LastStime := lastStatus.Stime
      LastTimeTotal := lastStatus.TimeTotal }

/-- One line of the `/proc/<pid>/status` loop (part_001, lines 197–233):
empty lines are skipped, a line that does not split on `":"` into
exactly two tokens is a panic, both tokens are trimmed, and the
`switch` on the key updates the matching field (`ParseUint` /
`parseLabeledSize` failures panic). -/
def applyStatusLine (st : ProcessStatus) (line : List Char) : Option ProcessStatus :=
  if line = [] then some st
  else
    match splitOnChar ':' line with
    | [k0, v0] =>
      if trimSpace k0 = "Name".data then some { st with Name := trimSpace v0 }
      else if trimSpace k0 = "FDSize".data then
        (parseUint (trimSpace v0)).map fun n => { st with FDSize := n }
      else if trimSpace k0 = "VmPeak".data then
        (parseLabeledSize (trimSpace v0)).map fun n => { st with VmPeak := n }
      else if trimSpace k0 = "VmSize".data then
        (parseLabeledSize (trimSpace v0)).map fun n => { st with VmSize := n }
      else if trimSpace k0 = "VmHWM".data then
        (parseLabeledSize (trimSpace v0)).map fun n => { st with VmHWM := n }
      else if trimSpace k0 = "VmRSS".data then
        (parseLabeledSize (trimSpace v0)).map fun n => { st with VmRSS := n }
      else if trimSpace k0 = "Threads".data then
        (parseUint (trimSpace v0)).map fun n => { st with Threads := n }
      else some st
    | _ => none

/-- The whole `/proc/<pid>/status` line loop. -/
def applyStatusLines (st : ProcessStatus) : List (List Char) → Option ProcessStatus
  | [] => some st
  | line :: rest =>
    match applyStatusLine st line with
    | none => none
    | some st' => applyStatusLines st' rest

/-- One whitespace token of the `/proc/stat` aggregate-cpu line:
`strconv.ParseUint` failures are skipped, successes are added to the
running `uint64` total (part_001, lines 245–252). -/
def addTok (b : Nat) (t : List Char) : Nat :=
  match parseUint t with
  | some n => wrap64 (b + n)
  | none => b

/-- One tab-separated token of a `/proc/stat` line, further split on
spaces (part_001, lines 244–253). -/
def addSpaceToks (a : Nat) (tok : List Char) : Nat :=
  (splitOnChar ' ' tok).foldl addTok a

/-- One line of `/proc/stat`: only lines starting with `"cpu "`
contribute (part_001, lines 240–254). -/
def addCpuLine (acc : Nat) (line : List Char) : Nat :=
  if hasCpuSpacePre line then (splitOnChar '\t' line).foldl addSpaceToks acc
  else acc

/-- The `status.TimeTotal` accumulation over the whole `/proc/stat`
blob, starting from the value the field already holds. -/
def computeTimeTotalFrom (init : Nat) (blob : List Char) : Nat :=
  (splitOnChar '\n' blob).foldl addCpuLine init

/-- The `/proc/<pid>/stat` stage (part_001, lines 259–274): split the
blob on single spaces, panic when fewer than 15 tokens, parse the 14th
and 15th (0-indexed 13 and 14) as the user- and kernel-mode tick
counters. -/
def parsePidStatTicks (blob : List Char) : Option (Nat × Nat) :=
  if (splitOnChar ' ' blob).length < 15 then none
  else
    match parseUint ((splitOnChar ' ' blob).getD 13 []) with
    | none => none
    | some ut =>
      match parseUint ((splitOnChar ' ' blob).getD 14 []) with
      | none => none
      | some stk => some (ut, stk)

/-- `getProcStatus` (part_001, lines 178–276).  `none` models any of
the function's `panic` calls, including the `ReadFile` failures for a
process that exited between enumeration and read. -/
def getProcStatus (fs : ProcFS) (pid : Nat) (lastStatuses : List ProcessStatus) :
    Option ProcessStatus :=
  (fs.procStatus pid).bind fun blob =>
  (applyStatusLines (initStatus pid lastStatuses) (splitOnChar '\n' blob.data)).bind fun st1 =>
  fs.stat.bind fun statBlob =>
  if computeTimeTotalFrom st1.TimeTotal statBlob.data = 0 then none
  else
    (fs.procStatFile pid).bind fun blob3 =>
    (parsePidStatTicks blob3.data).bind fun ticks =>
    some { st1 with TimeTotal := computeTimeTotalFrom st1.TimeTotal statBlob.data,
                    Utime := ticks.1, Stime := ticks.2 }

/-- The `for _, child := range children` loop of part_001's `getUsage`
(lines 110–112): run the subtree walk `g` on every child in order and
concatenate the results; a panic (`none`) anywhere aborts the loop. -/
def goChildren (g : Nat → Option (List ProcessStatus)) : List Nat → Option (List ProcessStatus)
  | [] => some []
  | c :: rest =>
    match g c with
    | none => none
    | some u =>
      match goChildren g rest with
      | none => none
      | some us => some (u ++ us)

/-- The recursive `getUsage` of part_001 (lines 106–114):
`getProcStatus` on the pid, then the subtree walks of all its
children, returning the pid's status followed by the concatenated
child statuses.  A panic anywhere (`none`) aborts the whole walk,
exactly as in the source.  The fuel bounds the recursion depth; the Go
recursion terminates exactly when the tree is finite. -/
def getUsage (fs : ProcFS) (ch : Nat → List Nat) :
    Nat → Nat → List ProcessStatus → Option (List ProcessStatus)
  | 0, _, _ => none
  | Nat.succ f, pid, last =>
    match getProcStatus fs pid last with
    | none => none
    | some status =>
      match goChildren (fun c => getUsage fs ch f c last) (ch pid) with
      | none => none
      | some childrenStatuses => some (status :: childrenStatuses)

/-- The `childloop` of `main.go`'s `getUsage` (lines 195–204): append
each enumerated child to the worklist unless it is already present. -/
def appendNewPids (pids : List Nat) (cs : List Nat) : List Nat :=
  cs.foldl (fun acc c => if acc.contains c then acc else acc ++ [c]) pids

/-- The pid-discovery loop of `main.go`'s `getUsage` (lines 166–206):
`for i := 0; i < len(pids); i++` over a growing worklist, expanding
`pids[i]`'s children through the duplicate guard.  The per-pid
snapshot reads (gopsutil calls) do not influence which pids are
discovered and are not modelled here; the fuel bounds the number of
loop iterations. -/
def mainWalkPids (ch : Nat → List Nat) (fuel : Nat) (pids : List Nat) (i : Nat) : List Nat :=
  match fuel with
  | 0 => pids
  | Nat.succ f =>
    if h : i < pids.length then
      mainWalkPids ch f (appendNewPids pids (ch (pids.get ⟨i, h⟩))) (i + 1)
    else pids

/-- One full tree walk of `main.go`'s `getUsage` from a root pid. -/
def mainGetUsagePids (ch : Nat → List Nat) (root : Nat) (fuel : Nat) : List Nat :=
  mainWalkPids ch fuel [root] 0

/-- `usages[process.Pid] = append(usages[process.Pid], process)`
(part_001, lines 77–79), with the Go map modelled as an association
list: the matching entry is extended, a missing key starts a fresh
one-element history. -/
def appendUsage (m : List (Nat × List ProcessStatus)) (ps : ProcessStatus) :
    List (Nat × List ProcessStatus) :=
  match m with
  | [] => [(ps.Pid, [ps])]
  | (k, h) :: rest =>
    if k = ps.Pid then (k, h ++ [ps]) :: rest
    else (k, h) :: appendUsage rest ps

/-- Map lookup on the association-list model of `usages`. -/
def lookupHist (pid : Nat) : List (Nat × List ProcessStatus) → Option (List ProcessStatus)
  | [] => none
  | (k, h) :: rest => if k = pid then some h else lookupHist pid rest

/-- One tick of the accumulation loop: every status of the tick is
appended to its pid's history. -/
def recordTick (m : List (Nat × List ProcessStatus)) (usage : List ProcessStatus) :
    List (Nat × List ProcessStatus) :=
  usage.foldl appendUsage m

/-- The whole run's accumulation, starting from the empty map. -/
def recordRun (ticks : List (List ProcessStatus)) : List (Nat × List ProcessStatus) :=
  ticks.foldl recordTick []

/-- One step of the aggregation loop of `runRktMonitor` (part_001,
lines 91–97): the accumulator is `(avgCPU, avgMem, peakMem)`; CPU and
memory sums are `uint64` additions, `GetCPUUsageUser`'s divide-by-zero
panic propagates. -/
def summStep (acc : Nat × Nat × Nat) (p : ProcessStatus) : Option (Nat × Nat × Nat) :=
  match GetCPUUsageUser p with
  | none => none
  | some c =>
    some (wrap64 (acc.1 + c), wrap64 (acc.2.1 + p.VmSize),
      if acc.2.2 < p.VmPeak then p.VmPeak else acc.2.2)

/-- The aggregation loop over one history. -/
def summFold (acc : Nat × Nat × Nat) : List ProcessStatus → Option (Nat × Nat × Nat)
  | [] => some acc
  | p :: rest =>
    match summStep acc p with
    | none => none
    | some acc' => summFold acc' rest

/-- The per-history summary of `runRktMonitor` (part_001, lines
86–103): sum over the history, then divide the CPU and memory totals
by the history length (`uint64` division; a zero length is a Go
divide-by-zero panic, modelled as `none`). -/
def summarize (h : List ProcessStatus) : Option (Nat × Nat × Nat) :=
  match summFold (0, 0, 0) h with
  | none => none
  | some acc =>
    if h.length = 0 then none
    else some (acc.1 / h.length, acc.2.1 / h.length, acc.2.2)

/-! ### Concrete fixtures

Small, fully concrete `/proc` contents and process trees used by the
counterexample and witness theorems below. -/

/-- A well-formed `/proc/<pid>/status` blob, as emitted by the kernel
(memory values labelled in `kB`). -/
def statusBlobFoo : String :=
  "Name:\tfoo\nFDSize:\t4\nVmPeak:\t10 kB\nVmSize:\t8 kB\nVmHWM:\t6 kB\nVmRSS:\t5 kB\nThreads:\t1\n"

/-- A well-formed `/proc/stat` blob whose aggregate cpu line sums
to 100 ticks. -/
def statBlob100 : String := "cpu  50 50 0 0\nintr 0\n"

/-- A well-formed `/proc/<pid>/stat` blob with `utime = 50` (token 14)
and `stime = 7` (token 15). -/
def pidStatBlob : String := "1 (foo) S 0 0 0 0 0 0 0 0 0 0 50 7 0 0\n"

/-- A filesystem where only pid 1 exists and is fully readable. -/
def fsOne : ProcFS where
  procStatus := fun p => if p = 1 then some statusBlobFoo else none
  stat := some statBlob100
  procStatFile := fun p => if p = 1 then some pidStatBlob else none

/-- A filesystem where pids 1, 2 and 3 all exist and are readable. -/
def fsThree : ProcFS where
  procStatus := fun p => if p = 1 ∨ p = 2 ∨ p = 3 then some statusBlobFoo else none
  stat := some statBlob100
  procStatFile := fun p => if p = 1 ∨ p = 2 ∨ p = 3 then some pidStatBlob else none

/-- Child enumeration for a two-node tree where the child (pid 2) has
already exited: its files are unreadable in `fsOne`. -/
def chOneChild : Nat → List Nat := fun p => if p = 1 then [2] else []

/-- Child enumeration in which pid 3 is claimed by two different
parents: it is a child of both pid 1 and pid 2. -/
def chDiamond : Nat → List Nat :=
  fun p => if p = 1 then [2, 3] else if p = 2 then [3] else []

/-- The snapshot `getProcStatus fsOne 1 []` evaluates to: previous
counters are the zero value (first observation), `TimeTotal` is the
`/proc/stat` sum, `Utime`/`Stime` come from `/proc/1/stat`, and the
memory fields hold the *unscaled* numbers of the `kB`-labelled values
(see the C1 analysis). -/
def stFirstTick : ProcessStatus :=
  { Pid := 1, Name := "foo".data, FDSize := 4, VmPeak := 10, VmSize := 8, VmHWM := 6,
    VmRSS := 5, Threads := 1, Utime := 50, LastUtime := 0, Stime := 7, LastStime := 0,
    TimeTotal := 100, LastTimeTotal := 0 }

/-- Two consecutive snapshots whose system-wide tick total did not
move: the system tick delta is zero. -/
def psZeroDelta : ProcessStatus :=
  { Utime := 3, LastUtime := 1, TimeTotal := 5, LastTimeTotal := 5 }

/-- Another zero-system-delta snapshot pair. -/
def psZeroDelta7 : ProcessStatus := { TimeTotal := 7, LastTimeTotal := 7 }

/-- A snapshot pair with user delta 1, kernel delta 1 and system
delta 10. -/
def psKernelTicks : ProcessStatus :=
  { Utime := 2, LastUtime := 1, Stime := 2, LastStime := 1, TimeTotal := 11, LastTimeTotal := 1 }

/-- A snapshot pair with user delta 2 and system delta 20. -/
def psUserDelta : ProcessStatus :=
  { Utime := 3, LastUtime := 1, TimeTotal := 21, LastTimeTotal := 1 }

/-- A snapshot pair whose cumulative user ticks *decreased* (pid
reuse): 1 tick down, with a system delta of one tick. -/
def psReuseDown1 : ProcessStatus :=
  { Utime := 0, LastUtime := 1, TimeTotal := 2, LastTimeTotal := 1 }

/-- Another decreasing-counter snapshot pair (2 ticks down). -/
def psReuseDown2 : ProcessStatus :=
  { Utime := 5, LastUtime := 7, TimeTotal := 9, LastTimeTotal := 8 }

/-! ### Helper lemmas -/

theorem u64size_pos : 0 < u64size := by norm_num [u64size]

theorem wrap64_lt (n : Nat) : wrap64 n < u64size := Nat.mod_lt _ u64size_pos

theorem sub64_zero {a : Nat} (h : a < u64size) : sub64 a 0 = a := by
  unfold sub64
  rw [Nat.zero_mod, Nat.sub_zero, Nat.mod_eq_of_lt h, Nat.add_mod_right, Nat.mod_eq_of_lt h]

/-- Generic preservation of a predicate along `List.foldl`. -/
theorem foldl_preserve {α β : Type} (P : α → Prop) (f : α → β → α)
    (hf : ∀ a b, P a → P (f a b)) :
    ∀ (l : List β) (a : α), P a → P (l.foldl f a) := by
  intro l
  induction l with
  | nil => intro a ha; exact ha
  | cons b t ih => intro a ha; exact ih (f a b) (hf a b ha)

theorem parseUint_lt {s : List Char} {n : Nat} (h : parseUint s = some n) : n < u64size := by
  unfold parseUint at h
  split at h
  · exact absurd h (by simp)
  · split at h
    · split at h
      · cases h; assumption
      · exact absurd h (by simp)
    · exact absurd h (by simp)

theorem addTok_lt {b : Nat} (t : List Char) (hb : b < u64size) : addTok b t < u64size := by
  unfold addTok
  split
  · exact wrap64_lt _
  · exact hb

theorem addSpaceToks_lt {a : Nat} (tok : List Char) (ha : a < u64size) :
    addSpaceToks a tok < u64size :=
  foldl_preserve (fun x => x < u64size) addTok (fun _ t hx => addTok_lt t hx) _ a ha

theorem addCpuLine_lt {acc : Nat} (line : List Char) (hacc : acc < u64size) :
    addCpuLine acc line < u64size := by
  unfold addCpuLine
  split
  · exact foldl_preserve (fun x => x < u64size) addSpaceToks
      (fun _ t hx => addSpaceToks_lt t hx) _ acc hacc
  · exact hacc

theorem computeTimeTotalFrom_lt {init : Nat} (blob : List Char) (h : init < u64size) :
    computeTimeTotalFrom init blob < u64size :=
  foldl_preserve (fun x => x < u64size) addCpuLine (fun _ l hx => addCpuLine_lt l hx) _ init h

theorem parsePidStatTicks_lt {blob : List Char} {t : Nat × Nat}
    (h : parsePidStatTicks blob = some t) : t.1 < u64size ∧ t.2 < u64size := by
  unfold parsePidStatTicks at h
  split at h
  · exact absurd h (by simp)
  · split at h
    next => exact absurd h (by simp)
    next ut hut =>
      split at h
      next => exact absurd h (by simp)
      next stk hst =>
        cases h
        exact ⟨parseUint_lt hut, parseUint_lt hst⟩

/-- The fields `applyStatusLine` never writes: a successful line keeps
`Pid`, both tick counters, both previous-tick counters and the running
system-tick total unchanged. -/
theorem applyStatusLine_pres {st st' : ProcessStatus} {line : List Char}
    (h : applyStatusLine st line = some st') :
    st'.Pid = st.Pid ∧ st'.Utime = st.Utime ∧ st'.Stime = st.Stime ∧
    st'.LastUtime = st.LastUtime ∧ st'.LastStime = st.LastStime ∧
    st'.TimeTotal = st.TimeTotal ∧ st'.LastTimeTotal = st.LastTimeTotal := by
  unfold applyStatusLine at h
  repeat' split at h
  all_goals
    first
    | (exact absurd h (fun hc => Option.noConfusion hc))
    | (cases h; exact ⟨rfl, rfl, rfl, rfl, rfl, rfl, rfl⟩)
    | (rw [Option.map_eq_some'] at h
       obtain ⟨n, hn, hst⟩ := h
       cases hst
       exact ⟨rfl, rfl, rfl, rfl, rfl, rfl, rfl⟩)

/-- `applyStatusLine_pres` extended over the whole status-file loop. -/
theorem applyStatusLines_pres {st st' : ProcessStatus} {lines : List (List Char)}
    (h : applyStatusLines st lines = some st') :
    st'.Pid = st.Pid ∧ st'.Utime = st.Utime ∧ st'.Stime = st.Stime ∧
    st'.LastUtime = st.LastUtime ∧ st'.LastStime = st.LastStime ∧
    st'.TimeTotal = st.TimeTotal ∧ st'.LastTimeTotal = st.LastTimeTotal := by
  induction lines generalizing st with
  | nil =>
    unfold applyStatusLines at h
    cases h
    exact ⟨rfl, rfl, rfl, rfl, rfl, rfl, rfl⟩
  | cons line rest ih =>
    unfold applyStatusLines at h
    split at h
    · exact absurd h (by simp)
    next st1 hline =>
      obtain ⟨h1, h2, h3, h4, h5, h6, h7⟩ := applyStatusLine_pres hline
      obtain ⟨g1, g2, g3, g4, g5, g6, g7⟩ := ih h
      exact ⟨g1.trans h1, g2.trans h2, g3.trans h3, g4.trans h4,
        g5.trans h5, g6.trans h6, g7.trans h7⟩

/-- When no entry of `lastStatuses` carries the pid, the `lastStatus`
scan returns the Go zero value. -/
theorem findLastStatus_none {pid : Nat} {l : List ProcessStatus}
    (h : ∀ s ∈ l, s.Pid ≠ pid) : findLastStatus pid l = zeroStatus := by
  unfold findLastStatus
  induction l with
  | nil => rfl
  | cons s t ih =>
    have hs : s.Pid ≠ pid := h s (by simp)
    simp only [List.foldl_cons, if_neg hs]
    exact ih fun x hx => h x (by simp [hx])

/-- Shape of a successful `getProcStatus`: where every field of the
result comes from, that the system-tick total is non-zero (the panic
guard) and that the `uint64`-valued counters are in range. -/
theorem getProcStatus_fields {fs : ProcFS} {pid : Nat} {last : List ProcessStatus}
    {st : ProcessStatus} (h : getProcStatus fs pid last = some st) :
    st.Pid = pid ∧
    st.LastUtime = (findLastStatus pid last).Utime ∧
    st.LastStime = (findLastStatus pid last).Stime ∧
    st.LastTimeTotal = (findLastStatus pid last).TimeTotal ∧
    st.TimeTotal ≠ 0 ∧ st.TimeTotal < u64size ∧
    st.Utime < u64size ∧ st.Stime < u64size := by
  unfold getProcStatus at h
  rw [Option.bind_eq_some] at h
  obtain ⟨blob, hblob, h⟩ := h
  rw [Option.bind_eq_some] at h
  obtain ⟨st1, hst1, h⟩ := h
  rw [Option.bind_eq_some] at h
  obtain ⟨statBlob, hstat, h⟩ := h
  split at h
  · exact absurd h (by simp)
  next htt =>
    rw [Option.bind_eq_some] at h
    obtain ⟨blob3, hb3, h⟩ := h
    rw [Option.bind_eq_some] at h
    obtain ⟨ticks, hticks, h⟩ := h
    cases h
    obtain ⟨p1, p2, p3, p4, p5, p6, p7⟩ := applyStatusLines_pres hst1
    have hinit : st1.TimeTotal = 0 := by
      rw [p6]; rfl
    have htlt : computeTimeTotalFrom st1.TimeTotal statBlob.data < u64size := by
      rw [hinit]; exact computeTimeTotalFrom_lt _ u64size_pos
    obtain ⟨hu, hs⟩ := parsePidStatTicks_lt hticks
    refine ⟨?_, ?_, ?_, ?_, htt, htlt, hu, hs⟩
    · show st1.Pid = pid
      rw [p1]
      rfl
    · show st1.LastUtime = (findLastStatus pid last).Utime
      rw [p4]
      rfl
    · show st1.LastStime = (findLastStatus pid last).Stime
      rw [p5]
      rfl
    · show st1.LastTimeTotal = (findLastStatus pid last).TimeTotal
      rw [p7]
      rfl

/-- An unreadable `/proc/<pid>/status` makes `getProcStatus` panic. -/
theorem getProcStatus_gone {fs : ProcFS} {pid : Nat} (last : List ProcessStatus)
    (h : fs.procStatus pid = none) : getProcStatus fs pid last = none := by
  unfold getProcStatus
  rw [h]
  rfl

/-- An unreadable pid makes the part_001 subtree walk rooted there
panic, whatever the fuel. -/
theorem getUsage_gone_self {fs : ProcFS} {ch : Nat → List Nat} {p : Nat}
    (fuel : Nat) (last : List ProcessStatus) (h : fs.procStatus p = none) :
    getUsage fs ch fuel p last = none := by
  cases fuel with
  | zero => rfl
  | succ f =>
    unfold getUsage
    rw [getProcStatus_gone last h]

/-- A failing subtree anywhere in the child list aborts the whole
children loop of part_001's `getUsage`. -/
theorem goChildren_gone {g : Nat → Option (List ProcessStatus)} {c : Nat}
    (hg : g c = none) : ∀ cs : List Nat, c ∈ cs → goChildren g cs = none := by
  intro cs
  induction cs with
  | nil => intro hmem; cases hmem
  | cons d rest ih =>
    intro hmem
    unfold goChildren
    rcases List.mem_cons.mp hmem with hcd | hcr
    · rw [← hcd, hg]
    · cases hgd : g d
      · rfl
      · rw [ih hcr]

/-- `pids.contains c = false` means `c` is not an element. -/
theorem not_mem_of_contains_false {l : List Nat} {a : Nat} (h : l.contains a = false) :
    a ∉ l := by
  intro hmem
  have hel := List.elem_eq_true_of_mem hmem
  simp only [List.contains] at h
  rw [hel] at h
  exact Bool.noConfusion h

/-- The duplicate guard of `main.go`'s `childloop` preserves
duplicate-freedom of the worklist. -/
theorem appendNewPids_nodup {pids : List Nat} (cs : List Nat) (h : pids.Nodup) :
    (appendNewPids pids cs).Nodup := by
  unfold appendNewPids
  refine foldl_preserve List.Nodup _ ?_ cs pids h
  intro acc c hacc
  by_cases hc : acc.contains c = true
  · rw [if_pos hc]
    exact hacc
  · rw [if_neg hc]
    rw [List.nodup_append]
    refine ⟨hacc, List.nodup_singleton c, ?_⟩
    intro a ha hb
    rw [List.mem_singleton] at hb
    subst hb
    exact not_mem_of_contains_false (Bool.eq_false_iff.mpr hc) ha

/-- The pid-discovery loop of `main.go` preserves duplicate-freedom of
the worklist, whatever the fuel and loop index. -/
theorem mainWalkPids_nodup (ch : Nat → List Nat) :
    ∀ (fuel : Nat) (pids : List Nat) (i : Nat), pids.Nodup →
      (mainWalkPids ch fuel pids i).Nodup := by
  intro fuel
  induction fuel with
  | zero => intro pids i h; exact h
  | succ f ih =>
    intro pids i h
    unfold mainWalkPids
    split
    · exact ih _ _ (appendNewPids_nodup _ h)
    · exact h

/-- A successful `lookupHist` finds an actual entry of the map. -/
theorem lookupHist_mem {pid : Nat} :
    ∀ {m : List (Nat × List ProcessStatus)} {h : List ProcessStatus},
      lookupHist pid m = some h → (pid, h) ∈ m := by
  intro m
  induction m with
  | nil => intro h hl; exact absurd hl (by simp [lookupHist])
  | cons e rest ih =>
    intro h hl
    match e with
    | (k, hh) =>
      unfold lookupHist at hl
      split at hl
      next hk =>
        cases hl
        subst hk
        exact List.mem_cons_self _ _
      next => exact List.mem_cons_of_mem _ (ih hl)

/-- Every entry of the history map stays non-empty when one status is
appended: the matched history grows, a new key starts at length one. -/
theorem appendUsage_entries_ne_nil {m : List (Nat × List ProcessStatus)}
    (ps : ProcessStatus) (hm : ∀ e ∈ m, e.2 ≠ []) :
    ∀ e ∈ appendUsage m ps, e.2 ≠ [] := by
  induction m with
  | nil =>
    intro e he
    unfold appendUsage at he
    rw [List.mem_singleton] at he
    subst he
    simp
  | cons hd rest ih =>
    intro e he
    match hd with
    | (k, hh) =>
      unfold appendUsage at he
      split at he
      · rcases List.mem_cons.mp he with rfl | hr
        · simp
        · exact hm _ (List.mem_cons_of_mem _ hr)
      · rcases List.mem_cons.mp he with rfl | hr
        · exact hm _ (List.mem_cons_self _ _)
        · exact ih (fun x hx => hm x (List.mem_cons_of_mem _ hx)) _ hr

/-- Appending one tick of statuses preserves non-emptiness of every
history in the map. -/
theorem recordTick_entries_ne_nil {m : List (Nat × List ProcessStatus)}
    (usage : List ProcessStatus) (hm : ∀ e ∈ m, e.2 ≠ []) :
    ∀ e ∈ recordTick m usage, e.2 ≠ [] := by
  unfold recordTick
  refine foldl_preserve (fun mm => ∀ e ∈ mm, e.2 ≠ []) appendUsage ?_ usage m hm
  intro mm ps hmm
  exact appendUsage_entries_ne_nil ps hmm

/-- After any run, every history in the accumulated map is non-empty. -/
theorem recordRun_entries_ne_nil (ticks : List (List ProcessStatus)) :
    ∀ e ∈ recordRun ticks, e.2 ≠ [] := by
  unfold recordRun
  refine foldl_preserve (fun mm => ∀ e ∈ mm, e.2 ≠ []) recordTick ?_ ticks [] (by simp)
  intro mm usage hmm
  exact recordTick_entries_ne_nil usage hmm

/-- `appendUsage` never discards a pid's existing history: the entry
under the appended status's pid is extended by exactly that status. -/
theorem appendUsage_extends {ps : ProcessStatus} :
    ∀ {m : List (Nat × List ProcessStatus)} {h : List ProcessStatus},
      lookupHist ps.Pid m = some h →
      lookupHist ps.Pid (appendUsage m ps) = some (h ++ [ps]) := by
  intro m
  induction m with
  | nil => intro h hl; exact absurd hl (by simp [lookupHist])
  | cons e rest ih =>
    intro h hl
    match e with
    | (k, hh) =>
      unfold lookupHist at hl
      unfold appendUsage
      split at hl
      next hk =>
        cases hl
        rw [if_pos hk]
        unfold lookupHist
        rw [if_pos hk]
      next hk =>
        rw [if_neg hk]
        unfold lookupHist
        rw [if_neg hk]
        exact ih hl

/-- `summStep` does not look at the kernel-mode tick fields. -/
theorem summStep_stimeFree (acc : Nat × Nat × Nat) (p : ProcessStatus) (a b : Nat) :
    summStep acc { p with Stime := a, LastStime := b } = summStep acc p := rfl

/-- The aggregation fold does not look at the kernel-mode tick fields. -/
theorem summFold_stimeFree (a b : Nat) :
    ∀ (h : List ProcessStatus) (acc : Nat × Nat × Nat),
      summFold acc (h.map fun p => { p with Stime := a, LastStime := b }) = summFold acc h := by
  intro h
  induction h with
  | nil => intro acc; rfl
  | cons p rest ih =>
    intro acc
    rw [List.map_cons]
    unfold summFold
    rw [summStep_stimeFree]
    cases summStep acc p
    · rfl
    · exact ih _

/-! ### Claim theorems -/

/-- C1 (code bug): the unit-label parser does not scale and does not
reject.  Because Go's `Sscanf` counts the `%d` operand as assigned
before the literal suffix of the format is matched, the guard
`i == 1` of the *first* branch (`"%d B"`) succeeds for every input
that starts with a decimal integer, so `"4 kB"` yields `4` instead of
`4 * 1024`, `"4 mB"` and `"4 gB"` yield `4` instead of the claimed
scalings, and the unrecognized suffix `"4 xB"` yields `4` instead of
reaching the `panic` (`ParseError`).  Only the `" B"` case agrees with
the claim. -/
theorem c1_parseLabeledSize_ignores_suffix :
    parseLabeledSize "4 kB".data = some 4 ∧
    parseLabeledSize "4 mB".data = some 4 ∧
    parseLabeledSize "4 gB".data = some 4 ∧
    parseLabeledSize "4 xB".data = some 4 ∧
    parseLabeledSize "4 B".data = some 4 :=
  ⟨rfl, rfl, rfl, rfl, rfl⟩

/-- C4 (code bug): the format/parse round trip loses far more than one
unit of granularity.  `formatSize 2048 = "2 kB"`, and reparsing that
rendering yields `2` — a loss of `2046` bytes, exceeding the claimed
maximum of `1023` for the kB unit — because `parseLabeledSize` returns
the leading integer unscaled (see C1). -/
theorem c4_roundTrip_precision_loss :
    formatSize 2048 = "2 kB".data ∧
    parseFormatRoundTrip 2048 = some 2 ∧
    1023 < 2048 - 2 :=
  ⟨rfl, rfl, by norm_num⟩

/-- C10 (confirmed): `formatSize`'s threshold comparisons are strict,
so exact powers of 1024 are rendered in the next-smaller unit
(`1024 B`, `1024 kB`, `1024 mB`), and a size is rendered in a unit
exactly when it strictly exceeds that unit's boundary. -/
theorem c10_formatSize_strict_boundaries :
    formatSize 1024 = "1024 B".data ∧
    formatSize (1024 * 1024) = "1024 kB".data ∧
    formatSize (1024 * 1024 * 1024) = "1024 mB".data ∧
    (∀ n : Nat, 1024 * 1024 * 1024 < n →
      formatSize n = natRepr (n / (1024 * 1024 * 1024)) ++ " gB".data) ∧
    (∀ n : Nat, 1024 * 1024 < n → n ≤ 1024 * 1024 * 1024 →
      formatSize n = natRepr (n / (1024 * 1024)) ++ " mB".data) ∧
    (∀ n : Nat, 1024 < n → n ≤ 1024 * 1024 →
      formatSize n = natRepr (n / 1024) ++ " kB".data) ∧
    (∀ n : Nat, n ≤ 1024 → formatSize n = natRepr n ++ " B".data) := by
  refine ⟨rfl, rfl, rfl, ?_, ?_, ?_, ?_⟩
  · intro n h1
    unfold formatSize
    rw [if_pos h1]
  · intro n h1 h2
    unfold formatSize
    rw [if_neg (by omega), if_pos h1]
  · intro n h1 h2
    unfold formatSize
    rw [if_neg (by omega), if_neg (by omega), if_pos h1]
  · intro n h1
    unfold formatSize
    rw [if_neg (by omega), if_neg (by omega), if_neg (by omega)]

/-- Witness for C10: each quantified branch applied at a concrete
size. -/
theorem c10_formatSize_strict_boundaries_witness :
    formatSize (1024 * 1024 * 1024 + 1) =
      natRepr ((1024 * 1024 * 1024 + 1) / (1024 * 1024 * 1024)) ++ " gB".data ∧
    formatSize (1024 * 1024 + 1) = natRepr ((1024 * 1024 + 1) / (1024 * 1024)) ++ " mB".data ∧
    formatSize 1025 = natRepr (1025 / 1024) ++ " kB".data ∧
    formatSize 7 = natRepr 7 ++ " B".data :=
  ⟨c10_formatSize_strict_boundaries.2.2.2.1 _ (by norm_num),
   c10_formatSize_strict_boundaries.2.2.2.2.1 _ (by norm_num) (by norm_num),
   c10_formatSize_strict_boundaries.2.2.2.2.2.1 1025 (by norm_num) (by norm_num),
   c10_formatSize_strict_boundaries.2.2.2.2.2.2 7 (by norm_num)⟩

/-- C2 (counterexample): on two snapshots with an unchanged system
tick total, the CPU computation does *not* return 0 — it divides by
zero (a Go runtime panic, modelled as `none`). -/
theorem c2_cex_zero_delta_panics :
    GetCPUUsageUser psZeroDelta = none ∧ GetCPUUsageUser psZeroDelta ≠ some 0 :=
  ⟨rfl, by decide⟩

/-- C2 (amended): when the system tick delta is zero, both CPU usage
computations perform an unguarded division by zero and panic (`none`);
no guard produces 0. -/
theorem c2_amended_zero_delta_divides_by_zero (ps : ProcessStatus)
    (h : sub64 ps.TimeTotal ps.LastTimeTotal = 0) :
    GetCPUUsageUser ps = none ∧ GetCPUUsageKernel ps = none := by
  unfold GetCPUUsageUser GetCPUUsageKernel
  rw [if_pos h, if_pos h]
  exact ⟨rfl, rfl⟩

/-- Witness for C2's amended theorem at a concrete snapshot pair. -/
theorem c2_amended_zero_delta_divides_by_zero_witness :
    GetCPUUsageUser psZeroDelta7 = none ∧ GetCPUUsageKernel psZeroDelta7 = none :=
  c2_amended_zero_delta_divides_by_zero psZeroDelta7 (by decide)

/-- C3 (counterexample): with user delta 1, kernel delta 1 and system
delta 10, the code reports 10% (user only) while the spec formula
`100*(Δuser+Δkernel)/Δsystem` gives 20%: kernel-mode consumption is
not included in the reported percentage. -/
theorem c3_cex_kernel_ticks_not_included :
    GetCPUUsageUser psKernelTicks = some 10 ∧
    specCpuPercent psKernelTicks = 20 ∧
    GetCPUUsageUser psKernelTicks ≠ some (specCpuPercent psKernelTicks) :=
  ⟨by decide, by decide, by decide⟩

/-- C3 (amended): the percentage the program records and aggregates is
`GetCPUUsageUser`, which (a) is independent of the kernel-mode tick
fields, (b) equals `100 * Δuser / Δsystem` whenever the denominator is
non-zero, and (c) therefore makes the whole per-history aggregation
independent of kernel-mode ticks. -/
theorem c3_amended_user_only_percentage :
    (∀ (ps : ProcessStatus) (a b : Nat),
      GetCPUUsageUser { ps with Stime := a, LastStime := b } = GetCPUUsageUser ps) ∧
    (∀ ps : ProcessStatus, sub64 ps.TimeTotal ps.LastTimeTotal ≠ 0 →
      GetCPUUsageUser ps =
        some (wrap64 (100 * sub64 ps.Utime ps.LastUtime) /
          sub64 ps.TimeTotal ps.LastTimeTotal)) ∧
    (∀ (h : List ProcessStatus) (a b : Nat),
      summarize (h.map fun p => { p with Stime := a, LastStime := b }) = summarize h) := by
  refine ⟨fun ps a b => rfl, fun ps h => ?_, fun h a b => ?_⟩
  · unfold GetCPUUsageUser
    rw [if_neg h]
  · unfold summarize
    rw [summFold_stimeFree, List.length_map]

/-- Witness for C3's amended theorem at a concrete snapshot pair. -/
theorem c3_amended_user_only_percentage_witness :
    GetCPUUsageUser psUserDelta = some (wrap64 (100 * sub64 3 1) / sub64 21 1) :=
  c3_amended_user_only_percentage.2.1 psUserDelta (by decide)

/-- C6 (counterexample): a pid observed for the first time (empty
previous-status list) does not get CPU percentage 0: on `fsOne` the
first snapshot has `Utime = 50` against a system total of `100` ticks,
and the recorded percentage is 50. -/
theorem c6_cex_first_tick_nonzero :
    getProcStatus fsOne 1 [] = some stFirstTick ∧
    GetCPUUsageUser stFirstTick = some 50 ∧
    GetCPUUsageUser stFirstTick ≠ some 0 :=
  ⟨rfl, by decide, by decide⟩

/-- C6 (amended): for a pid with no preceding snapshot the previous
counters default to the Go zero value, so the first tick's CPU
percentage is computed as `100 * Utime / TimeTotal` — the process's
whole-lifetime share of all system ticks since boot — rather than
being defined as 0. -/
theorem c6_amended_first_tick_formula (fs : ProcFS) (pid : Nat)
    (last : List ProcessStatus) (st : ProcessStatus)
    (hno : ∀ s ∈ last, s.Pid ≠ pid) (h : getProcStatus fs pid last = some st) :
    st.LastUtime = 0 ∧ st.LastStime = 0 ∧ st.LastTimeTotal = 0 ∧
    GetCPUUsageUser st = some (wrap64 (100 * st.Utime) / st.TimeTotal) := by
  obtain ⟨hpid, hlu, hls, hlt, htt, htlt, hut, hst⟩ := getProcStatus_fields h
  rw [findLastStatus_none hno] at hlu hls hlt
  refine ⟨hlu, hls, hlt, ?_⟩
  unfold GetCPUUsageUser
  rw [hlt, hlu]
  rw [show (zeroStatus.Utime : Nat) = 0 from rfl, show (zeroStatus.TimeTotal : Nat) = 0 from rfl]
  rw [sub64_zero htlt, sub64_zero hut]
  rw [if_neg htt]

/-- Witness for C6's amended theorem on the concrete filesystem
`fsOne`. -/
theorem c6_amended_first_tick_formula_witness :
    GetCPUUsageUser stFirstTick =
      some (wrap64 (100 * stFirstTick.Utime) / stFirstTick.TimeTotal) :=
  (c6_amended_first_tick_formula fsOne 1 [] stFirstTick (by simp) rfl).2.2.2

/-- C7 (counterexample): a cumulative user-tick counter that decreases
between ticks (pid reuse) is *not* restarted at 0: the `uint64`
subtraction wraps and the reported percentage is astronomically large
(`2^64 - 100` here). -/
theorem c7_cex_counter_decrease_wraps :
    GetCPUUsageUser psReuseDown1 = some 18446744073709551516 := by
  decide

/-- C7 (amended): (a) when a pid's cumulative user ticks decrease by
`d` and the system delta is one tick, the reported percentage is the
wrapped value `2^64 - 100*d`; (b) the history map never discards a
pid's accumulated history — appending a snapshot extends the existing
entry. -/
theorem c7_amended_wrap_and_history_kept :
    (∀ ps : ProcessStatus, ps.Utime < ps.LastUtime → ps.LastUtime < u64size →
      sub64 ps.TimeTotal ps.LastTimeTotal = 1 →
      100 * (ps.LastUtime - ps.Utime) < u64size →
      GetCPUUsageUser ps = some (u64size - 100 * (ps.LastUtime - ps.Utime))) ∧
    (∀ (m : List (Nat × List ProcessStatus)) (ps : ProcessStatus) (h : List ProcessStatus),
      lookupHist ps.Pid m = some h →
      lookupHist ps.Pid (appendUsage m ps) = some (h ++ [ps])) := by
  constructor
  · intro ps h1 h2 h3 h4
    have hM : 0 < u64size := u64size_pos
    have hu : ps.Utime < u64size := lt_trans h1 h2
    unfold GetCPUUsageUser
    rw [h3, if_neg one_ne_zero]
    have hsub : sub64 ps.Utime ps.LastUtime = u64size - (ps.LastUtime - ps.Utime) := by
      unfold sub64
      rw [Nat.mod_eq_of_lt hu, Nat.mod_eq_of_lt h2, Nat.mod_eq_of_lt (by omega)]
      omega
    rw [hsub]
    have hwrap : wrap64 (100 * (u64size - (ps.LastUtime - ps.Utime))) =
        u64size - 100 * (ps.LastUtime - ps.Utime) := by
      unfold wrap64
      have e1 : 100 * (u64size - (ps.LastUtime - ps.Utime)) =
          (u64size - 100 * (ps.LastUtime - ps.Utime)) + 99 * u64size := by
        omega
      rw [e1, Nat.add_mul_mod_self_right, Nat.mod_eq_of_lt (by omega)]
    rw [hwrap, Nat.div_one]
  · intro m ps h hl
    exact appendUsage_extends hl

/-- Witness for C7's amended theorem at a concrete snapshot pair with
a decreasing counter. -/
theorem c7_amended_wrap_and_history_kept_witness :
    GetCPUUsageUser psReuseDown2 = some (u64size - 100 * (7 - 5)) :=
  c7_amended_wrap_and_history_kept.1 psReuseDown2
    (by decide) (by decide) (by decide) (by decide)

/-- C5 (counterexample): on `fsOne` pid 1 is perfectly readable while
its child pid 2 has exited (`ReadFile` fails); the tick does not skip
pid 2 and sample pid 1 — the whole `getUsage` walk panics (`none`),
so the failure is fatal rather than recoverable. -/
theorem c5_cex_process_gone_aborts_run :
    getProcStatus fsOne 1 [] ≠ none ∧
    fsOne.procStatus 2 = none ∧
    getUsage fsOne chOneChild 5 1 [] = none := by
  refine ⟨?_, rfl, rfl⟩
  show (some stFirstTick : Option ProcessStatus) ≠ none
  simp

/-- C5 (amended): in part_001 a pid that disappears between
enumeration and read makes `getProcStatus` panic, and the panic
propagates through the recursive walk: if any direct child of the root
is unreadable, the entire tick returns nothing — no other pid is
sampled and the run aborts. -/
theorem c5_amended_gone_is_fatal (fs : ProcFS) (ch : Nat → List Nat) (fuel : Nat)
    (last : List ProcessStatus) (root c : Nat) (hc : c ∈ ch root)
    (hgone : fs.procStatus c = none) :
    getUsage fs ch fuel root last = none := by
  cases fuel with
  | zero => rfl
  | succ f =>
    have hgc : goChildren (fun cc => getUsage fs ch f cc last) (ch root) = none :=
      goChildren_gone (getUsage_gone_self f last hgone) (ch root) hc
    cases hr : getProcStatus fs root last with
    | none => simp [getUsage, hr]
    | some status => simp [getUsage, hr, hgc]

/-- Witness for C5's amended theorem on the concrete filesystem
`fsOne` and the tree `chOneChild`. -/
theorem c5_amended_gone_is_fatal_witness :
    getUsage fsOne chOneChild 5 1 [] = none :=
  c5_amended_gone_is_fatal fsOne chOneChild 5 [] 1 2 (by decide) rfl

/-- C8 (counterexample): the recursive walker of part_001 has no
duplicate guard.  In `chDiamond`, pid 3 is claimed as a child by both
pid 1 and pid 2, and the walk samples it twice: the produced pid
sequence is `[1, 2, 3, 3]`. -/
theorem c8_cex_recursive_walker_duplicates :
    (getUsage fsThree chDiamond 10 1 []).map (fun l => l.map fun s => s.Pid) =
      some [1, 2, 3, 3] := rfl

/-- C8 (amended): the iterative walker of `main.go`, whose `childloop`
skips any child already on the worklist, produces a duplicate-free pid
list from any start (the walk itself is a pure function of the
child-enumeration relation, so running it twice on an unchanged tree
trivially yields the same list); the recursive part_001 walker has no
such guard (see the counterexample). -/
theorem c8_amended_iterative_walk_nodup (ch : Nat → List Nat) (root : Nat) (fuel : Nat) :
    (mainGetUsagePids ch root fuel).Nodup := by
  exact mainWalkPids_nodup ch fuel [root] 0 (by simp)

/-- C9 (confirmed): the history map is only ever grown by appending a
snapshot, so every history reachable at summarization time is
non-empty and the divisions by the history length in `summarize`
(average CPU and average memory) are divisions by a positive count. -/
theorem c9_histories_nonempty (ticks : List (List ProcessStatus)) (pid : Nat)
    (h : List ProcessStatus) (hl : lookupHist pid (recordRun ticks) = some h) :
    h ≠ [] ∧ 0 < h.length := by
  have hmem := lookupHist_mem hl
  have hne := recordRun_entries_ne_nil ticks _ hmem
  exact ⟨hne, List.length_pos.mpr hne⟩

/-- Witness for C9 on a one-tick run observing a single pid. -/
theorem c9_histories_nonempty_witness :
    ([({ Pid := 3 } : ProcessStatus)] ≠ []) ∧
    0 < ([({ Pid := 3 } : ProcessStatus)]).length :=
  c9_histories_nonempty [[{ Pid := 3 }]] 3 [{ Pid := 3 }] rfl

end RktMonitor
